import Mathlib

/-!
Verification of the streaming orchestrator of the obsidian-cline plugin.

The development shallowly embeds the provider adapters
(`src/api/OpenAIProvider.ts`, which also contains `AnthropicProvider`,
and `src/api/OllamaProvider.ts`), the tool-call accumulator inside
`OpenAIProvider.generateResponse`, the two turn orchestrators
(`src/main.ts` with `onContent`/`onToolCallsDone` callbacks, and the
`ObsigentPluginCore` of `unnamed/part_003` with `onUpdate`/`onToolCall`
callbacks), and `LocalToolService.executeTool` of
`src/services/McpMarketplaceService.ts`.

Modelling conventions, used throughout:
  - JavaScript string truthiness is modelled by comparing with the empty
    string: an absent or empty field is the empty string, and a guard
    such as `if (tcChunk.id)` becomes `if c.id ≠ "" then ...`.
  - Host primitives (`fetch`, `JSON.parse`, `JSON.stringify`,
    vault/file access, `executeCommandById`) are not repository code;
    they enter the model as explicit data (`FetchOutcome`, parse and
    executor parameters, outcome constructors), universally quantified
    in the theorems.
  - Byte-level chunk reassembly is abstracted away: the adapters are
    modelled at the level of complete, already-split frames, with the
    JSON parse result of each frame captured by an inductive frame type
    (one constructor per control-flow branch of the source).
-/

/-- The single quote character, used inside message literals. -/
def sqc : String := (Char.ofNat 39).toString

/-- JavaScript `a || b` on strings: the empty string is falsy. -/
def jsOr (a b : String) : String := if a = "" then b else a

/-- `OpenAIToolCall` of `src/api/OpenAIProvider.ts` with the nested
`function` object flattened: `name` is `function.name` and `arguments`
is `function.arguments`.  The constant `type: "function"` field is
omitted. -/
structure OpenAIToolCall where
  id : String
  name : String
  arguments : String
deriving DecidableEq, Repr

/-- One element of a `delta.tool_calls` array of a streamed OpenAI
frame: a tool-call fragment keyed by `index`, with absent string fields
modelled as `""`. -/
structure ToolCallChunk where
  index : Nat
  id : String
  name : String
  args : String
deriving DecidableEq, Repr

/-- The record created for a not-yet-seen index:
`{ id: '', type: 'function', function: { name: '', arguments: '' } }`. -/
def emptyToolCall : OpenAIToolCall := ⟨"", "", ""⟩

/-- The body of the `delta.tool_calls.forEach` in
`OpenAIProvider.generateResponse`: `id` is overwritten when the chunk
carries a truthy `id`, while `function.name` and `function.arguments`
are concatenated with `+=` (the truthy guard on the appended pieces is
dropped because appending `""` is the identity). -/
def applyChunkRecord (r : OpenAIToolCall) (c : ToolCallChunk) : OpenAIToolCall :=
  { id := if c.id ≠ "" then c.id else r.id
    name := r.name ++ c.name
    arguments := r.arguments ++ c.args }

/-- The `currentToolCallsAccumulator` JavaScript array: a sparse array
is a partial map from indices to records together with its `length`
(one past the largest assigned index). -/
@[ext] structure Accum where
  len : Nat
  get : Nat → Option OpenAIToolCall

/-- The initial `currentToolCallsAccumulator = []`. -/
def emptyAccum : Accum := ⟨0, fun _ => none⟩

/-- Processing one tool-call fragment: initialize the slot with
`emptyToolCall` if unseen, then apply the fragment; the array length
grows to `index + 1` if the index is beyond the current length. -/
def applyChunk (acc : Accum) (c : ToolCallChunk) : Accum :=
  { len := max acc.len (c.index + 1)
    get := fun j =>
      if j = c.index then
        some (applyChunkRecord ((acc.get c.index).getD emptyToolCall) c)
      else acc.get j }

/-- Folding a list of fragments into the accumulator, in arrival order. -/
def accumAfterChunks (acc : Accum) (cs : List ToolCallChunk) : Accum :=
  cs.foldl applyChunk acc

/-- The filter predicate `tc && tc.id && tc.function.name &&
tc.function.arguments` applied on the terminal `tool_calls` signal. -/
def completeToolCall (tc : OpenAIToolCall) : Bool :=
  tc.id ≠ "" && tc.name ≠ "" && tc.arguments ≠ ""

/-- The batch handed to `onToolCall`:
`currentToolCallsAccumulator.filter(...)`.  A JavaScript `filter`
iterates the indices `0 .. length-1`, skips holes, and keeps records
passing the predicate. -/
def emitted (acc : Accum) : List OpenAIToolCall :=
  (List.range acc.len).filterMap fun i =>
    match acc.get i with
    | some tc => if completeToolCall tc then some tc else none
    | none => none

/-- Analysis companion of `emitted` that remembers the accumulator
index each emitted record came from. -/
def emittedPairs (acc : Accum) : List (Nat × OpenAIToolCall) :=
  (List.range acc.len).filterMap fun i =>
    match acc.get i with
    | some tc => if completeToolCall tc then some (i, tc) else none
    | none => none

/-- The normalized callback events of the `StreamCallbacks` interface.
`content` covers both callback-naming generations
(`onContent`/`onUpdate`), `toolCalls` covers
`onToolCallsDone`/`onToolCall`. -/
inductive StreamEvent where
  | content (s : String) (isFinal : Bool)
  | toolCalls (tcs : List OpenAIToolCall)
  | error (msg : String)
  | finish (reason : String)
deriving DecidableEq, Repr

/-- The parse outcome of one SSE chunk of the OpenAI-compatible
stream, one constructor per branch of the chunk-processing loop:
a chunk not starting with `data: `, the literal `[DONE]` sentinel,
a JSON parse failure (logged and skipped), a parsed frame without a
non-empty `choices` array, and a frame with `delta.content`,
`delta.tool_calls` and `finish_reason` (absent fields are `""` / `[]`). -/
inductive SSEData where
  | notData
  | doneSentinel
  | parseError
  | noChoices
  | delta (content : String) (toolCalls : List ToolCallChunk) (finishReason : String)
deriving DecidableEq, Repr

/-- How the read loop of a streaming body ends: the reader reports
`done` (clean end of stream), or a read rejects with an exception
carrying a `name` and a `message` (an abort surfaces here as
`name = "AbortError"`). -/
inductive StreamEnd where
  | clean
  | exn (name msg : String)
deriving DecidableEq, Repr

/-- Observer: the `delta.content` of a frame (`""` if none). -/
def frameContent : SSEData → String
  | .delta c _ _ => c
  | _ => ""

/-- Observer: the `delta.tool_calls` fragments of a frame. -/
def frameChunks : SSEData → List ToolCallChunk
  | .delta _ tcs _ => tcs
  | _ => []

/-- Observer: the `finish_reason` of a frame (`""` if none). -/
def frameFin : SSEData → String
  | .delta _ _ fin => fin
  | _ => ""

/-- The streaming loop of `OpenAIProvider.generateResponse` over the
already-framed stream.  Per frame: emit `onUpdate(delta.content,
false)` when content is truthy, fold `delta.tool_calls` into the
accumulator, and on a truthy `finish_reason` either emit the filtered
batch through `onToolCall` (reason `tool_calls`) or `onUpdate("",
true)`, then `onFinish(finish_reason)` and return, ignoring the rest
of the stream.  If the loop drains the stream cleanly no callback is
invoked at all; if a read rejects, the surrounding catch turns an
`AbortError` into `onFinish('aborted')` and anything else into
`onError`. -/
def oaiLoop : Accum → List SSEData → StreamEnd → List StreamEvent
  | _, [], .clean => []
  | _, [], .exn n m =>
      if n = "AbortError" then [.finish "aborted"]
      else [.error ("Failed to connect to OpenAI API (stream): " ++ m)]
  | acc, f :: rest, e =>
      match f with
      | .delta c tcs fin =>
          let acc' := accumAfterChunks acc tcs
          (if c ≠ "" then [.content c false] else []) ++
          (if fin ≠ "" then
            (if fin = "tool_calls" then [.toolCalls (emitted acc')]
             else [.content "" true]) ++ [.finish fin]
           else oaiLoop acc' rest e)
      | _ => oaiLoop acc rest e

/-- Per-provider settings `{ apiKey?, apiEndpoint?, defaultModel? }`
(`ProviderSettings` of `src/api/LLMProvider.ts`); an absent field is
`""`. -/
structure ProviderSettingsM where
  apiKey : String := ""
  apiEndpoint : String := ""
  defaultModel : String := ""
deriving DecidableEq, Repr

/-- `ObsigentPluginSettings` of `src/main.ts`, restricted to the fields
the providers read: the legacy global `apiKey` / `apiEndpoint` /
`defaultModel` and the per-provider `providerSettings` entries
(`none` models an absent entry). -/
structure PluginSettingsM where
  apiKey : String := ""
  apiEndpoint : String := ""
  defaultModel : String := ""
  openai : Option ProviderSettingsM := none
  ollama : Option ProviderSettingsM := none
  anthropic : Option ProviderSettingsM := none
deriving DecidableEq, Repr

/-- The observable outcome of the single `fetch` call of an adapter,
over a frame type `α`: the promise rejects with an exception
(`name`, `message`); the response is non-2xx (the error-detail string
assembled from the response body is abstracted as `errorDetails`);
the response has a null body; or a streaming body delivering `frames`
and then ending as `e`. -/
inductive FetchOutcome (α : Type) where
  | reject (name msg : String)
  | httpError (errorDetails : String)
  | noBody
  | stream (frames : List α) (e : StreamEnd)
deriving DecidableEq, Repr

/-- What one `generateResponse` invocation did: the callback events it
issued, in order, and whether it reached the `fetch` call. -/
structure RunResult where
  events : List StreamEvent
  fetched : Bool
deriving DecidableEq, Repr

/-- The effective OpenAI endpoint:
`providerSettings.apiEndpoint || settings.apiEndpoint`. -/
def openAIEffectiveEndpoint (s : PluginSettingsM) : String :=
  jsOr (s.openai.getD {}).apiEndpoint s.apiEndpoint

/-- The effective OpenAI model:
`providerSettings.defaultModel || settings.defaultModel`. -/
def openAIEffectiveModel (s : PluginSettingsM) : String :=
  jsOr (s.openai.getD {}).defaultModel s.defaultModel

/-- `OpenAIProvider.generateResponse`: configuration checks (API key is
optional; endpoint and model are mandatory), then the fetch outcome:
rejection is caught (an `AbortError` becomes `onFinish('aborted')`,
anything else `onError`), a non-2xx response or null body produce one
`onError`, and a streaming body runs `oaiLoop` from the empty
accumulator. -/
def openAIGenerateResponse (s : PluginSettingsM) (out : FetchOutcome SSEData) :
    RunResult :=
  if openAIEffectiveEndpoint s = "" then
    ⟨[.error "OpenAI API endpoint is not set. Please configure it in settings."], false⟩
  else if openAIEffectiveModel s = "" then
    ⟨[.error "OpenAI Default model is not set. Please configure it in settings."], false⟩
  else
    ⟨match out with
     | .reject n m =>
         if n = "AbortError" then [.finish "aborted"]
         else [.error ("Failed to connect to OpenAI API (stream): " ++ m)]
     | .httpError d => [.error d]
     | .noBody => [.error "Response body is null."]
     | .stream frames e => oaiLoop emptyAccum frames e, true⟩

/-- One parsed line of the Ollama NDJSON stream: a blank line
(skipped), a JSON parse failure (logged and skipped), or a chunk with
its `error`, `message.content` and `done` fields (absent strings are
`""`). -/
inductive OllamaItem where
  | blank
  | parseError
  | chunk (error : String) (content : String) (done : Bool)
deriving DecidableEq, Repr

/-- The NDJSON read loop of `OllamaProvider.generateResponse`.  Per
line: an in-band `error` field yields `onError` then
`onFinish("error")` and returns; truthy content yields
`onContent(content, false)`; `done: true` yields `onContent("", true)`
then `onFinish("stop")` and returns.  A clean end of stream yields
`onFinish("stop")`; a rejected read is caught (abort becomes
`onFinish('aborted')`, anything else `onError` then
`onFinish("error")`).  The final-partial-line replay of the `done`
branch is not modelled (a well-formed NDJSON stream ends on a line
boundary). -/
def ollamaLoop : List OllamaItem → StreamEnd → List StreamEvent
  | [], .clean => [.finish "stop"]
  | [], .exn n m =>
      if n = "AbortError" then [.finish "aborted"]
      else [.error ("Failed to connect to Ollama API: " ++ m), .finish "error"]
  | i :: rest, e =>
      match i with
      | .blank => ollamaLoop rest e
      | .parseError => ollamaLoop rest e
      | .chunk err c done =>
          if err ≠ "" then [.error ("Ollama stream error: " ++ err), .finish "error"]
          else
            (if c ≠ "" then [.content c false] else []) ++
            (if done then [.content "" true, .finish "stop"]
             else ollamaLoop rest e)

/-- The combined Ollama configuration check
`!providerSettings || !providerSettings.apiEndpoint ||
!providerSettings.defaultModel` (no legacy global fallback here). -/
def ollamaConfigMissing (s : PluginSettingsM) : Bool :=
  match s.ollama with
  | none => true
  | some ps => ps.apiEndpoint = "" || ps.defaultModel = ""

/-- `OllamaProvider.generateResponse`: the combined configuration
check, then the fetch outcome as for OpenAI, with Ollama's catch also
emitting `onFinish("error")` after `onError` on a non-abort
rejection. -/
def ollamaGenerateResponse (s : PluginSettingsM) (out : FetchOutcome OllamaItem) :
    RunResult :=
  if ollamaConfigMissing s then
    ⟨[.error "Ollama API endpoint or default model is not set."], false⟩
  else
    ⟨match out with
     | .reject n m =>
         if n = "AbortError" then [.finish "aborted"]
         else [.error ("Failed to connect to Ollama API: " ++ m), .finish "error"]
     | .httpError d => [.error d]
     | .noBody => [.error "Response body is null from Ollama."]
     | .stream frames e => ollamaLoop frames e, true⟩

/-- The conversation roles of `OpenAIMessage`. -/
inductive Role where
  | system
  | user
  | assistant
  | tool
deriving DecidableEq, Repr

/-- The `content` of a transcript entry.  The orchestrators build tool
entries with `JSON.stringify({ error: msg })` and
`JSON.stringify(result)`; these host encodings are kept symbolic as
`errJson` / `resJson` constructors rather than re-implemented. -/
inductive MsgContent where
  | str (s : String)
  | errJson (msg : String)
  | resJson (s : String)
deriving DecidableEq, Repr

/-- JavaScript truthiness of a message `content`: a plain string is
falsy when empty; a stringified JSON object is never empty. -/
def msgTruthy : MsgContent → Bool
  | .str s => s ≠ ""
  | _ => true

/-- An `OpenAIMessage` transcript entry: role, content, the
`tool_calls` of an assistant entry (`[]` when absent) and the
`tool_call_id` of a tool entry (`""` when absent). -/
structure ChatMessage where
  role : Role
  content : MsgContent
  toolCalls : List OpenAIToolCall := []
  toolCallId : String := ""
deriving DecidableEq, Repr

/-- One converted Anthropic message: a single text block holding the
source entry's content. -/
structure AnthMsg where
  role : Role
  text : MsgContent
deriving DecidableEq, Repr

/-- One step of `AnthropicProvider.convertToAnthropicMessages`:
a system entry with truthy content overwrites the system prompt (the
last one wins); user/assistant entries with truthy content become text
messages; assistant entries with only tool calls and tool entries are
skipped. -/
def convertStep (st : List AnthMsg × Option MsgContent) (m : ChatMessage) :
    List AnthMsg × Option MsgContent :=
  match m.role with
  | .system => if msgTruthy m.content then (st.1, some m.content) else st
  | .user => if msgTruthy m.content then (st.1 ++ [⟨.user, m.content⟩], st.2) else st
  | .assistant =>
      if msgTruthy m.content then (st.1 ++ [⟨.assistant, m.content⟩], st.2) else st
  | .tool => st

/-- `convertToAnthropicMessages`: fold of `convertStep` from an empty
message list and no system prompt. -/
def convertToAnthropicMessages (msgs : List ChatMessage) :
    List AnthMsg × Option MsgContent :=
  msgs.foldl convertStep ([], none)

/-- One named SSE event of the Anthropic stream: an event whose data
line is empty (nothing parsed), a JSON parse failure (logged and
skipped), or a parsed event with its `event:` type and the `delta`
type/text and error-message fields its handler reads (absent strings
are `""`). -/
inductive AnthItem where
  | noData
  | parseError
  | ev (eventType deltaType deltaText errorMessage : String)
deriving DecidableEq, Repr

/-- The named-SSE loop of `AnthropicProvider.generateResponse`:
`content_block_delta` with a truthy `text_delta` emits
`onContent(text, false)`; `message_stop` emits `onFinish("stop")` and
returns; an `error` event emits one `onError` and returns;
`message_start`, `message_delta`, `ping` and unknown events are
skipped.  Draining the stream without `message_stop` emits
`onFinish("done_outside_loop")`; a rejected read is caught (abort
becomes `onFinish('aborted')`, anything else `onError`). -/
def anthLoop : List AnthItem → StreamEnd → List StreamEvent
  | [], .clean => [.finish "done_outside_loop"]
  | [], .exn n m =>
      if n = "AbortError" then [.finish "aborted"]
      else [.error ("Failed to connect to Anthropic API: " ++ m)]
  | i :: rest, e =>
      match i with
      | .noData => anthLoop rest e
      | .parseError => anthLoop rest e
      | .ev t dt dx em =>
          if t = "content_block_delta" then
            (if dt = "text_delta" ∧ dx ≠ "" then [.content dx false] else []) ++
            anthLoop rest e
          else if t = "message_stop" then [.finish "stop"]
          else if t = "error" then
            [.error ("Anthropic API Error: " ++ jsOr em "Unknown stream error")]
          else anthLoop rest e

/-- `AnthropicProvider.generateResponse`: only the API key is checked
(a missing endpoint defaults to the Anthropic base URL and a missing
model to a built-in model name, so the model check after it can never
fire); then the emptiness check on the converted messages, then the
fetch outcome with the Anthropic catch. -/
def anthropicGenerateResponse (s : PluginSettingsM) (msgs : List ChatMessage)
    (out : FetchOutcome AnthItem) : RunResult :=
  let ps := s.anthropic.getD {}
  let apiKey := ps.apiKey
  let defaultModel := jsOr ps.defaultModel "claude-3-haiku-20240307"
  if apiKey = "" then ⟨[.error "Anthropic API key is not set."], false⟩
  else if defaultModel = "" then
    ⟨[.error "Anthropic Default model is not set."], false⟩
  else
    let conv := convertToAnthropicMessages msgs
    if conv.1 = [] ∧ conv.2 = none then
      ⟨[.error "No messages to send to Anthropic."], false⟩
    else
      ⟨match out with
       | .reject n m =>
           if n = "AbortError" then [.finish "aborted"]
           else [.error ("Failed to connect to Anthropic API: " ++ m)]
       | .httpError d => [.error d]
       | .noBody => [.error "Response body is null."]
       | .stream frames e => anthLoop frames e, true⟩

/-- JavaScript `s.startsWith(p)`, via the character lists (the
built-in `String.startsWith` does not evaluate inside the kernel). -/
def strStartsWith (s p : String) : Bool := p.data.isPrefixOf s.data

/-- The result shape of `LocalToolService.executeTool` in
`src/services/LocalToolService.ts`: `{ result?: any; error?: string }`
(the `result` payload is kept as its stringified form, which is all
the orchestrator does with it). -/
inductive ExecOutcome where
  | err (msg : String)
  | ok (resultJson : String)
deriving DecidableEq, Repr

/-- The state threaded through one `processLlmTurn` of the
`src/main.ts` orchestrator: the shared `chatHistory`, the
`accumulatedContent` of the in-progress assistant message, the
`currentToolCalls` of the turn, and a count of the recursive
`processLlmTurn` follow-up invocations it triggered. -/
structure TurnStateA where
  history : List ChatMessage
  accumulated : String
  currentToolCalls : List OpenAIToolCall
  followUps : Nat
deriving Repr

/-- The fresh state at the start of a `processLlmTurn`:
`accumulatedContent = ""` and `currentToolCalls = []`. -/
def initialTurnStateA (h : List ChatMessage) : TurnStateA := ⟨h, "", [], 0⟩

/-- The transcript entry one iteration of the `onToolCallsDone` loop of
`src/main.ts` appends for a tool call.  `parse` models `JSON.parse` on
the accumulated arguments (`some emsg` is a thrown SyntaxError with
message `emsg`, caught individually by the per-call try/catch); `exec`
models `localToolService.executeTool`, consulted only for names
starting with `obsidian_`; other names get the hard-coded ToolHive
error.  Every branch appends exactly one `tool` entry carrying the
call's `id`. -/
def toolEntryA (parse : String → Option String)
    (exec : String → String → ExecOutcome) (tc : OpenAIToolCall) : ChatMessage :=
  match parse tc.arguments with
  | some emsg =>
      ⟨.tool, .errJson ("Error parsing arguments for tool " ++ tc.name ++ ": " ++ emsg),
       [], tc.id⟩
  | none =>
      let outcome :=
        if strStartsWith tc.name "obsidian_" then exec tc.name tc.arguments
        else .err ("ToolHive-managed MCP tool execution for " ++ sqc ++ tc.name ++
                   sqc ++ " is not yet fully implemented here.")
      match outcome with
      | .err m => ⟨.tool, .errJson m, [], tc.id⟩
      | .ok r => ⟨.tool, .resJson r, [], tc.id⟩

/-- One callback firing of the `src/main.ts` orchestrator
(`processLlmTurn`'s `streamCallbacks`):
`onContent` appends the chunk to `accumulatedContent`;
`onToolCallsDone` (on a non-empty batch) appends one assistant entry
carrying the accumulated content and the batch, resets the
accumulator, remembers the batch in `currentToolCalls`, appends one
`tool` entry per call in order, and recurses into a follow-up turn;
`onError` only reports to the view; `onFinish` appends the accumulated
content as a final assistant entry exactly when the reason is `stop`
and no tool calls were seen. -/
def stepA (parse : String → Option String) (exec : String → String → ExecOutcome)
    (st : TurnStateA) (e : StreamEvent) : TurnStateA :=
  match e with
  | .content chunk _ => { st with accumulated := st.accumulated ++ chunk }
  | .toolCalls tcs =>
      if tcs = [] then st
      else
        let st1 : TurnStateA :=
          { history := st.history ++ [⟨.assistant, .str st.accumulated, tcs, ""⟩]
            accumulated := ""
            currentToolCalls := tcs
            followUps := st.followUps }
        let st2 := tcs.foldl
          (fun s tc => { s with history := s.history ++ [toolEntryA parse exec tc] })
          st1
        { st2 with followUps := st2.followUps + 1 }
  | .error _ => st
  | .finish reason =>
      if reason = "stop" ∧ st.currentToolCalls = [] then
        { st with history := st.history ++ [⟨.assistant, .str st.accumulated, [], ""⟩] }
      else st

/-- Folding a turn's callback events through the `src/main.ts`
orchestrator. -/
def runA (parse : String → Option String) (exec : String → String → ExecOutcome)
    (st : TurnStateA) (es : List StreamEvent) : TurnStateA :=
  es.foldl (stepA parse exec) st

/-- One content block of an `McpToolCallResult` (its `type` is always
`"text"`). -/
structure McpContentM where
  text : String
deriving DecidableEq, Repr

/-- `McpToolCallResult` of `src/types/mcp.ts`: an `isError` flag and a
list of content blocks. -/
structure McpCallResult where
  isError : Bool := false
  content : List McpContentM := []
deriving DecidableEq, Repr

/-- What the `onToolCall` batch loop of `unnamed/part_003` produced
when it ran to completion: the `tool` entries pushed onto
`chatHistory` (all at once, after the loop), and whether
`continueGenerationWithTools` (the follow-up turn) was invoked —
which the code does unconditionally after the loop. -/
structure BatchResultB where
  entries : List ChatMessage
  followUp : Bool
deriving DecidableEq, Repr

/-- The per-call loop of the `onToolCall` callback of
`unnamed/part_003`.  `JSON.parse(toolCall.function.arguments)` is NOT
wrapped in a try/catch here: a parse failure (`parse args = some _`)
throws out of the loop, so nothing is pushed and no follow-up turn
starts (`none`).  A call whose name matches a registered local tool is
executed (`execB` models `localToolService.executeTool`); its content
blocks are joined with newlines and prefixed with `Error: ` when
`isError`; any other name yields the not-recognized error entry.
Every completed call contributes one `tool` entry carrying its id. -/
def onToolCallGoB (parse : String → Option String) (isLocal : String → Bool)
    (execB : String → String → McpCallResult) :
    List OpenAIToolCall → List ChatMessage → Option BatchResultB
  | [], acc => some ⟨acc, true⟩
  | tc :: rest, acc =>
      match parse tc.arguments with
      | some _ => none
      | none =>
          if isLocal tc.name then
            let result := execB tc.name tc.arguments
            let resultContent :=
              String.intercalate "\n" (result.content.map (·.text))
            let contentStr :=
              if result.isError then "Error: " ++ resultContent else resultContent
            onToolCallGoB parse isLocal execB rest
              (acc ++ [⟨.tool, .str contentStr, [], tc.id⟩])
          else
            onToolCallGoB parse isLocal execB rest
              (acc ++ [⟨.tool, .str ("Error: Tool " ++ sqc ++ tc.name ++ sqc ++
                " is not a recognized local or Obsidian command."), [], tc.id⟩])

/-- The `onToolCall` callback of `unnamed/part_003` on a tool-call
batch. -/
def onToolCallB (parse : String → Option String) (isLocal : String → Bool)
    (execB : String → String → McpCallResult) (tcs : List OpenAIToolCall) :
    Option BatchResultB :=
  onToolCallGoB parse isLocal execB tcs []

/-- The transcript effect of one callback firing in the
`unnamed/part_003` orchestrator (`handleUserMessage`):
`onUpdate` pushes one assistant entry whose content is the chunk it
was called with exactly when `isFinal` is true; `onToolCall` pushes
the batch entries when the loop completes (an escaped parse exception
is caught by the provider and surfaces as `onError`, pushing
nothing); `onError` and `onFinish` do not touch the transcript. -/
def stepB (parse : String → Option String) (isLocal : String → Bool)
    (execB : String → String → McpCallResult)
    (st : List ChatMessage) (e : StreamEvent) : List ChatMessage :=
  match e with
  | .content chunk isFinal =>
      if isFinal then st ++ [⟨.assistant, .str chunk, [], ""⟩] else st
  | .toolCalls tcs =>
      match onToolCallB parse isLocal execB tcs with
      | some res => st ++ res.entries
      | none => st
  | .error _ => st
  | .finish _ => st

/-- Folding a turn's callback events through the `unnamed/part_003`
orchestrator's transcript. -/
def runB (parse : String → Option String) (isLocal : String → Bool)
    (execB : String → String → McpCallResult)
    (st : List ChatMessage) (es : List StreamEvent) : List ChatMessage :=
  es.foldl (stepB parse isLocal execB) st

/-- An Obsidian command as seen by `app.commands.listCommands()`: its
identifier and its human-readable display name. -/
structure CommandM where
  id : String
  name : String
deriving DecidableEq, Repr

/-- The host `app.commands.executeCommandById`: it either returns
(its return value is ignored by the caller) or throws. -/
inductive ExecCmdOutcome where
  | ok
  | threw (msg : String)
deriving DecidableEq, Repr

/-- `LocalToolService.executeTool` of
`src/services/McpMarketplaceService.ts`.  The Obsidian command lookup
(`listCommands().find(cmd => cmd.id === toolName)`) comes FIRST: a
matching command id is executed fire-and-forget and a synthetic
success message built from the command's display name is returned
(or an error result if the host call throws).  Only when no command
id matches does the `switch` dispatch the built-in local tools, with
a not-found error as default.  The vault-backed results of the three
built-ins are abstracted as parameters; the cache write-back after a
command execution does not affect the returned result and is not
modelled. -/
def executeToolM (commands : List CommandM) (execCmd : String → ExecCmdOutcome)
    (readFileRes writeFileRes searchNotesRes : McpCallResult)
    (toolName : String) : McpCallResult :=
  match commands.find? (fun cmd => cmd.id = toolName) with
  | some cmd =>
      match execCmd toolName with
      | .ok => ⟨false, [⟨"Successfully executed Obsidian command: " ++ cmd.name⟩]⟩
      | .threw m =>
          ⟨true, [⟨"Error executing Obsidian command " ++ sqc ++ toolName ++ sqc ++
            ": " ++ m⟩]⟩
  | none =>
      if toolName = "obsidian_readFile" then readFileRes
      else if toolName = "obsidian_writeFile" then writeFileRes
      else if toolName = "obsidian_searchNotes" then searchNotesRes
      else ⟨true, [⟨"Local tool " ++ sqc ++ toolName ++ sqc ++ " not found."⟩]⟩

/-- The per-index projection of the accumulator fold: folding the
fragments of one slot into that slot's (optional) record. -/
def perIndexFold (o : Option OpenAIToolCall) (cs : List ToolCallChunk) :
    Option OpenAIToolCall :=
  cs.foldl (fun o c => some (applyChunkRecord (o.getD emptyToolCall) c)) o

/-- The content-delta events a run of non-terminal frames produces. -/
def deltaEvents (l : List SSEData) : List StreamEvent :=
  l.flatMap fun g =>
    if frameContent g ≠ "" then [StreamEvent.content (frameContent g) false] else []

/-- Folding the tool-call fragments of a run of frames into the
accumulator. -/
def accumAfterFrames (acc : Accum) (l : List SSEData) : Accum :=
  l.foldl (fun a g => accumAfterChunks a (frameChunks g)) acc

/-- Recognizer for terminal (`onFinish`) events. -/
def isFinishEvent : StreamEvent → Bool
  | .finish _ => true
  | _ => false

/-- Updating one member of an indexed family of fragment sequences. -/
def updateFam (f : Nat → List ToolCallChunk) (i : Nat) (t : List ToolCallChunk) :
    Nat → List ToolCallChunk :=
  fun j => if j = i then t else f j

/-- `IsInterleaving f l`: the single list `l` is obtained by merging
the per-index sequences `f 0, f 1, ...`, preserving the relative order
within each sequence (at every step the head of one sequence is
taken). -/
inductive IsInterleaving : (Nat → List ToolCallChunk) → List ToolCallChunk → Prop where
  | nil (f : Nat → List ToolCallChunk) (h : ∀ i, f i = []) : IsInterleaving f []
  | cons (f : Nat → List ToolCallChunk) (i : Nat) (c : ToolCallChunk)
      (t l : List ToolCallChunk) (hf : f i = c :: t)
      (h : IsInterleaving (updateFam f i t) l) : IsInterleaving f (c :: l)

/-- Delivering all fragments in index order: the fragments of index 0,
then of index 1, and so on up to the bound `n`. -/
def inOrderChunks (f : Nat → List ToolCallChunk) (n : Nat) : List ToolCallChunk :=
  (List.range n).flatMap f

/-- Well-formedness of a built accumulator: every occupied slot lies
below the array length. -/
def GoodAccum (acc : Accum) : Prop :=
  ∀ i tc, acc.get i = some tc → i < acc.len

/-- The id the accumulator ends with for one slot, stated
independently of the fold: the id of the last id-bearing fragment, or
`base` if no fragment carries one. -/
def lastIdFrom (base : String) (cs : List ToolCallChunk) : String :=
  (((cs.filter (fun c => c.id ≠ "")).getLast?).map ToolCallChunk.id).getD base

/-- Example settings that pass the OpenAI, Ollama and Anthropic
configuration checks, used by concrete witnesses. -/
def settingsAll : PluginSettingsM :=
  { apiKey := ""
    apiEndpoint := "https://api.openai.com/v1/chat/completions"
    defaultModel := "gpt-3.5-turbo"
    ollama := some ⟨"", "http://localhost:11434/api/chat", "llama3"⟩
    anthropic := some ⟨"sk-ant-test", "", ""⟩ }

/-- Example one-message transcript, used by concrete witnesses. -/
def msgsEx : List ChatMessage := [⟨.user, .str "hello", [], ""⟩]

/-- Index-0 fragment used by the C2 witness. -/
def c00 : ToolCallChunk := ⟨0, "a", "f", "x"⟩

/-- Index-1 fragment used by the C2 witness. -/
def c10 : ToolCallChunk := ⟨1, "b", "g", "y"⟩

/-- A two-index fragment family used by the C2 witness. -/
def fEx : Nat → List ToolCallChunk :=
  fun i => if i = 0 then [c00] else if i = 1 then [c10] else []

/-- First C3 witness frame: an id and name fragment for index 0 and a
name-only fragment for index 1 (which will stay incomplete). -/
def fr1 : SSEData :=
  .delta "" [⟨0, "call_1", "obsidian_readFile", ""⟩, ⟨1, "", "partial", ""⟩] ""

/-- Second C3 witness frame: the arguments fragment for index 0. -/
def fr2 : SSEData := .delta "" [⟨0, "", "", "argpart"⟩] ""

/-- Terminal C3 witness frame. -/
def frFin : SSEData := .delta "" [] "tool_calls"

/-- Fragment list used by the C10 witness: two id-bearing fragments
for index 0 (ids `a` then `b`) plus an index-1 fragment. -/
def lC10 : List ToolCallChunk :=
  [⟨0, "a", "fn", "ab"⟩, ⟨1, "x", "g", ""⟩, ⟨0, "b", "", "cd"⟩]

/-- Trivial always-succeeding `JSON.parse` model. -/
def parseTrivial : String → Option String := fun _ => none

/-- Local-tool lookup that recognizes nothing. -/
def isLocalNone : String → Bool := fun _ => false

/-- Trivial local-tool executor for the part_003 orchestrator. -/
def execBTrivial : String → String → McpCallResult := fun _ _ => ⟨false, []⟩

/-- Settings with an OpenAI model but no endpoint anywhere. -/
def settingsNoEndpoint : PluginSettingsM := { defaultModel := "gpt-3.5-turbo" }

/-- Settings with an OpenAI endpoint but no model anywhere; also no
Ollama entry and no Anthropic key. -/
def settingsNoModel : PluginSettingsM := { apiEndpoint := "https://api.example" }

/-- Anthropic settings with an API key but neither endpoint nor
model. -/
def settingsAnthNoEndpoint : PluginSettingsM :=
  { anthropic := some ⟨"sk-key", "", ""⟩ }

/-- `JSON.parse` model failing exactly on the string `notjson`. -/
def parseEx : String → Option String :=
  fun s => if s = "notjson" then some "Unexpected token" else none

/-- Executor model used by the C7 witness. -/
def execEx : String → String → ExecOutcome :=
  fun n _ => if n = "obsidian_readFile" then .ok "file content" else .err "nope"

/-- C7 witness batch: the first call's arguments are invalid JSON, the
second call's are fine. -/
def tcsC7 : List OpenAIToolCall :=
  [⟨"call_1", "obsidian_readFile", "notjson"⟩,
   ⟨"call_2", "obsidian_readFile", "argsok"⟩]

/-- Local-tool lookup recognizing the built-in vault tools of
`unnamed/part_003`. -/
def isLocalEx : String → Bool := fun n => n = "obsidian_readFile"

/-- Executor model used by the C7/C8 counterexample and witness. -/
def execBEx : String → String → McpCallResult := fun _ _ => ⟨false, [⟨"ok"⟩]⟩

/-- Command table for the C9 counterexample: a host command whose id
collides with the built-in `obsidian_readFile`. -/
def cmdsEx : List CommandM := [⟨"obsidian_readFile", "Open reader"⟩]

/-- Host command execution that always succeeds. -/
def execCmdOk : String → ExecCmdOutcome := fun _ => .ok

/-- A distinguishable built-in readFile result. -/
def readRes : McpCallResult := ⟨false, [⟨"FILE CONTENT"⟩]⟩

/-- Placeholder result for the other built-ins. -/
def otherRes : McpCallResult := ⟨false, [⟨"unused"⟩]⟩

lemma accumAfterChunks_get (cs : List ToolCallChunk) (acc : Accum) (i : Nat) :
    (accumAfterChunks acc cs).get i =
      perIndexFold (acc.get i) (cs.filter (fun c => c.index = i)) := by
  induction cs generalizing acc with
  | nil => rfl
  | cons c cs ih =>
    show (accumAfterChunks (applyChunk acc c) cs).get i = _
    rw [ih]
    by_cases h : c.index = i
    · subst h
      simp [applyChunk, perIndexFold]
    · have hflt : List.filter (fun c => decide (c.index = i)) (c :: cs) =
          List.filter (fun c => decide (c.index = i)) cs := by
        simp [List.filter_cons, h]
      rw [hflt]
      congr 1
      show (if i = c.index then _ else acc.get i) = acc.get i
      rw [if_neg (fun h' : i = c.index => h h'.symm)]

lemma accumAfterChunks_len_le (cs : List ToolCallChunk) (acc : Accum) (n : Nat) :
    (accumAfterChunks acc cs).len ≤ n ↔
      acc.len ≤ n ∧ ∀ c ∈ cs, c.index + 1 ≤ n := by
  induction cs generalizing acc with
  | nil => simp [accumAfterChunks]
  | cons c cs ih =>
    show (accumAfterChunks (applyChunk acc c) cs).len ≤ n ↔ _
    rw [ih]
    simp only [applyChunk, max_le_iff, List.mem_cons]
    constructor
    · rintro ⟨⟨h1, h2⟩, h3⟩
      exact ⟨h1, fun c' hc' => hc'.elim (fun he => he ▸ h2) (h3 c')⟩
    · rintro ⟨h1, h2⟩
      exact ⟨⟨h1, h2 c (Or.inl rfl)⟩, fun c' hc' => h2 c' (Or.inr hc')⟩

lemma accumAfterChunks_congr (acc : Accum) (l₁ l₂ : List ToolCallChunk)
    (h : ∀ i, l₁.filter (fun c => c.index = i) = l₂.filter (fun c => c.index = i)) :
    accumAfterChunks acc l₁ = accumAfterChunks acc l₂ := by
  have hmem : ∀ c : ToolCallChunk, c ∈ l₁ ↔ c ∈ l₂ := by
    intro c
    constructor <;> intro hc
    · have h1 : c ∈ l₁.filter (fun c' => c'.index = c.index) :=
        List.mem_filter.2 ⟨hc, by simp⟩
      rw [h c.index] at h1
      exact (List.mem_filter.1 h1).1
    · have h1 : c ∈ l₂.filter (fun c' => c'.index = c.index) :=
        List.mem_filter.2 ⟨hc, by simp⟩
      rw [← h c.index] at h1
      exact (List.mem_filter.1 h1).1
  ext i
  · have h1 := accumAfterChunks_len_le l₁ acc
    have h2 := accumAfterChunks_len_le l₂ acc
    have key : ∀ n, (accumAfterChunks acc l₁).len ≤ n ↔
        (accumAfterChunks acc l₂).len ≤ n := by
      intro n
      rw [h1, h2]
      constructor
      · rintro ⟨ha, hb⟩
        exact ⟨ha, fun c hc => hb c ((hmem c).mpr hc)⟩
      · rintro ⟨ha, hb⟩
        exact ⟨ha, fun c hc => hb c ((hmem c).mp hc)⟩
    exact le_antisymm ((key _).mpr le_rfl) ((key _).mp le_rfl)
  · rw [accumAfterChunks_get, accumAfterChunks_get, h i]

lemma interleaving_filter (f : Nat → List ToolCallChunk) (l : List ToolCallChunk)
    (hidx : ∀ i c, c ∈ f i → c.index = i) (h : IsInterleaving f l) :
    ∀ i, l.filter (fun c => c.index = i) = f i := by
  induction h with
  | nil f hf => intro i; simp [hf i]
  | cons f i c t l hf _ ih =>
    have hidx' : ∀ j c', c' ∈ updateFam f i t j → c'.index = j := by
      intro j c' hc'
      by_cases hji : j = i
      · subst hji
        have : c' ∈ f j := by
          rw [hf]
          exact List.mem_cons_of_mem c (by simpa [updateFam] using hc')
        exact hidx j c' this
      · exact hidx j c' (by simpa [updateFam, hji] using hc')
    intro k
    have hc : c.index = i := hidx i c (hf ▸ List.mem_cons_self c t)
    by_cases hk : k = i
    · subst hk
      rw [List.filter_cons_of_pos (by simp [hc]), ih hidx' k]
      simp [updateFam, hf]
    · rw [List.filter_cons_of_neg
        (by simp only [hc, decide_eq_true_eq]; exact fun h' => hk h'.symm),
        ih hidx' k]
      simp [updateFam, hk]

lemma inOrder_filter (f : Nat → List ToolCallChunk) (n : Nat)
    (hidx : ∀ i c, c ∈ f i → c.index = i) (hbound : ∀ i, n ≤ i → f i = [])
    (k : Nat) :
    (inOrderChunks f n).filter (fun c => c.index = k) = f k := by
  have main : ∀ m, (inOrderChunks f m).filter (fun c => c.index = k) =
      if k < m then f k else [] := by
    intro m
    induction m with
    | zero => simp [inOrderChunks]
    | succ m ih =>
      have hsplit : inOrderChunks f (m + 1) = inOrderChunks f m ++ f m := by
        rw [inOrderChunks, inOrderChunks, List.range_succ, List.flatMap_append]
        simp
      rw [hsplit, List.filter_append, ih]
      by_cases hkm : k = m
      · subst hkm
        have h1 : List.filter (fun c => decide (c.index = k)) (f k) = f k :=
          List.filter_eq_self.2 (fun c hc => by simp [hidx k c hc])
        rw [h1, if_neg (lt_irrefl k), if_pos (Nat.lt_succ_self k)]
        simp
      · have h1 : List.filter (fun c => decide (c.index = k)) (f m) = [] :=
          List.filter_eq_nil_iff.2 (fun c hc => by simp [hidx m c hc, Ne.symm hkm])
        rw [h1, List.append_nil]
        by_cases hlt : k < m
        · rw [if_pos hlt, if_pos (Nat.lt_succ_of_lt hlt)]
        · rw [if_neg hlt, if_neg (by omega)]
  rw [main n]
  by_cases hlt : k < n
  · rw [if_pos hlt]
  · rw [if_neg hlt, hbound k (by omega)]

lemma goodAccum_empty : GoodAccum emptyAccum := by
  intro i tc h
  simp [emptyAccum] at h

lemma goodAccum_applyChunk (acc : Accum) (c : ToolCallChunk)
    (h : GoodAccum acc) : GoodAccum (applyChunk acc c) := by
  intro i tc hi
  simp only [applyChunk] at hi ⊢
  by_cases hic : i = c.index
  · subst hic; omega
  · rw [if_neg hic] at hi
    have := h i tc hi
    omega

lemma goodAccum_accumAfterChunks (cs : List ToolCallChunk) (acc : Accum)
    (h : GoodAccum acc) : GoodAccum (accumAfterChunks acc cs) := by
  induction cs generalizing acc with
  | nil => exact h
  | cons c cs ih => exact ih _ (goodAccum_applyChunk acc c h)

lemma goodAccum_accumAfterFrames (l : List SSEData) (acc : Accum)
    (h : GoodAccum acc) : GoodAccum (accumAfterFrames acc l) := by
  induction l generalizing acc with
  | nil => exact h
  | cons g l ih => exact ih _ (goodAccum_accumAfterChunks _ acc h)

lemma mem_emittedPairs (acc : Accum) (hgood : GoodAccum acc)
    (i : Nat) (tc : OpenAIToolCall) :
    (i, tc) ∈ emittedPairs acc ↔ acc.get i = some tc ∧ completeToolCall tc := by
  constructor
  · intro h
    obtain ⟨j, _, hj⟩ := List.mem_filterMap.1 h
    revert hj
    cases hget : acc.get j with
    | none => intro hj; simp at hj
    | some tc' =>
      intro hj
      by_cases hc : completeToolCall tc'
      · simp only [hc, if_true] at hj
        obtain ⟨h3, h4⟩ := Prod.mk.inj (Option.some.inj hj)
        subst h3
        subst h4
        exact ⟨hget, hc⟩
      · simp [hc] at hj
  · rintro ⟨hget, hc⟩
    refine List.mem_filterMap.2 ⟨i, List.mem_range.2 (hgood i tc hget), ?_⟩
    simp [hget, hc]

lemma emitted_eq_pairs_map (acc : Accum) :
    emitted acc = (emittedPairs acc).map Prod.snd := by
  rw [emitted, emittedPairs, List.map_filterMap]
  congr 1
  funext i
  cases acc.get i with
  | none => rfl
  | some tc =>
    by_cases hc : completeToolCall tc <;> simp [hc]

lemma pairsFst_sublist (g : Nat → Option (Nat × OpenAIToolCall))
    (hg : ∀ j p, g j = some p → p.1 = j) (l : List Nat) :
    ((l.filterMap g).map Prod.fst).Sublist l := by
  induction l with
  | nil => simp
  | cons j t ih =>
    rw [List.filterMap_cons]
    cases hj : g j with
    | none => exact (ih).cons j
    | some p =>
      rw [List.map_cons, hg j p hj]
      exact (ih).cons₂ j

lemma emittedPairs_fst_pairwise (acc : Accum) :
    ((emittedPairs acc).map Prod.fst).Pairwise (· < ·) := by
  have hsub : ((emittedPairs acc).map Prod.fst).Sublist (List.range acc.len) := by
    apply pairsFst_sublist
    · intro j p hp
      revert hp
      cases acc.get j with
      | none => intro hp; simp at hp
      | some tc =>
        intro hp
        by_cases hc : completeToolCall tc
        · simp only [hc, if_true] at hp
          rw [← Option.some.inj hp]
        · simp [hc] at hp
  exact (List.pairwise_lt_range acc.len).sublist hsub

lemma oaiLoop_cons_delta (acc : Accum) (c : String) (tcs : List ToolCallChunk)
    (fin : String) (rest : List SSEData) (e : StreamEnd) :
    oaiLoop acc (.delta c tcs fin :: rest) e =
      (if c ≠ "" then [StreamEvent.content c false] else []) ++
      (if fin ≠ "" then
        (if fin = "tool_calls" then
          [StreamEvent.toolCalls (emitted (accumAfterChunks acc tcs))]
         else [StreamEvent.content "" true]) ++ [StreamEvent.finish fin]
       else oaiLoop (accumAfterChunks acc tcs) rest e) := rfl

lemma oaiLoop_decomp (acc : Accum) (l₁ : List SSEData) (f : SSEData)
    (l₂ : List SSEData) (e : StreamEnd)
    (h₁ : ∀ g ∈ l₁, frameFin g = "") (hf : frameFin f ≠ "") :
    oaiLoop acc (l₁ ++ f :: l₂) e =
      deltaEvents l₁ ++
      ((if frameContent f ≠ "" then [StreamEvent.content (frameContent f) false]
        else []) ++
       ((if frameFin f = "tool_calls" then
          [StreamEvent.toolCalls (emitted (accumAfterFrames acc (l₁ ++ [f])))]
         else [StreamEvent.content "" true]) ++
        [StreamEvent.finish (frameFin f)])) := by
  induction l₁ generalizing acc with
  | nil =>
    cases f with
    | delta c tcs fin =>
      simp only [frameFin] at hf
      rw [List.nil_append, oaiLoop_cons_delta, if_pos hf]
      simp only [deltaEvents, List.flatMap_nil, List.nil_append, frameContent,
        frameFin, accumAfterFrames, List.foldl_cons, List.foldl_nil, frameChunks]
    | notData => simp [frameFin] at hf
    | doneSentinel => simp [frameFin] at hf
    | parseError => simp [frameFin] at hf
    | noChoices => simp [frameFin] at hf
  | cons g l₁ ih =>
    have hg : frameFin g = "" := h₁ g (List.mem_cons_self g l₁)
    have h₁' : ∀ g' ∈ l₁, frameFin g' = "" :=
      fun g' hg' => h₁ g' (List.mem_cons_of_mem g hg')
    have hstep : ∀ acc', deltaEvents (g :: l₁) ++
        ((if frameContent f ≠ "" then [StreamEvent.content (frameContent f) false]
          else []) ++
         ((if frameFin f = "tool_calls" then
            [StreamEvent.toolCalls (emitted (accumAfterFrames acc' (g :: l₁ ++ [f])))]
           else [StreamEvent.content "" true]) ++
          [StreamEvent.finish (frameFin f)])) =
        (if frameContent g ≠ "" then [StreamEvent.content (frameContent g) false]
          else []) ++
        (deltaEvents l₁ ++
        ((if frameContent f ≠ "" then [StreamEvent.content (frameContent f) false]
          else []) ++
         ((if frameFin f = "tool_calls" then
            [StreamEvent.toolCalls (emitted (accumAfterFrames
              (accumAfterChunks acc' (frameChunks g)) (l₁ ++ [f])))]
           else [StreamEvent.content "" true]) ++
          [StreamEvent.finish (frameFin f)]))) := by
      intro acc'
      rw [deltaEvents, List.flatMap_cons, List.append_assoc]
      rfl
    cases g with
    | delta c tcs fin =>
      simp only [frameFin] at hg
      subst hg
      rw [List.cons_append, oaiLoop_cons_delta, if_neg (not_not_intro rfl),
        ih (accumAfterChunks acc tcs) h₁', hstep acc]
      rfl
    | notData =>
      rw [List.cons_append,
        show oaiLoop acc (SSEData.notData :: (l₁ ++ f :: l₂)) e =
          oaiLoop acc (l₁ ++ f :: l₂) e from rfl,
        ih acc h₁', hstep acc]
      rfl
    | doneSentinel =>
      rw [List.cons_append,
        show oaiLoop acc (SSEData.doneSentinel :: (l₁ ++ f :: l₂)) e =
          oaiLoop acc (l₁ ++ f :: l₂) e from rfl,
        ih acc h₁', hstep acc]
      rfl
    | parseError =>
      rw [List.cons_append,
        show oaiLoop acc (SSEData.parseError :: (l₁ ++ f :: l₂)) e =
          oaiLoop acc (l₁ ++ f :: l₂) e from rfl,
        ih acc h₁', hstep acc]
      rfl
    | noChoices =>
      rw [List.cons_append,
        show oaiLoop acc (SSEData.noChoices :: (l₁ ++ f :: l₂)) e =
          oaiLoop acc (l₁ ++ f :: l₂) e from rfl,
        ih acc h₁', hstep acc]
      rfl

lemma deltaEvents_filter_finish (l : List SSEData) :
    (deltaEvents l).filter isFinishEvent = [] := by
  induction l with
  | nil => rfl
  | cons g l ih =>
    have hsplit : deltaEvents (g :: l) =
        (if frameContent g ≠ "" then
          [StreamEvent.content (frameContent g) false] else []) ++ deltaEvents l := by
      rw [deltaEvents, deltaEvents, List.flatMap_cons]
    rw [hsplit, List.filter_append, ih]
    by_cases hc : frameContent g ≠ "" <;> simp [hc, isFinishEvent]

lemma string_foldl_append (l : List String) (x y : String) :
    l.foldl (· ++ ·) (x ++ y) = x ++ l.foldl (· ++ ·) y := by
  induction l generalizing y with
  | nil => rfl
  | cons a l ih =>
    show l.foldl (· ++ ·) ((x ++ y) ++ a) = x ++ (a :: l).foldl (· ++ ·) y
    rw [String.append_assoc, ih]
    rfl

lemma string_join_cons (a : String) (l : List String) :
    String.join (a :: l) = a ++ String.join l := by
  show l.foldl (· ++ ·) ("" ++ a) = a ++ String.join l
  rw [String.empty_append, String.join]
  have h := string_foldl_append l a ""
  rw [String.append_empty] at h
  exact h

lemma lastIdFrom_cons (base : String) (c : ToolCallChunk) (cs : List ToolCallChunk) :
    lastIdFrom base (c :: cs) =
      lastIdFrom (if c.id ≠ "" then c.id else base) cs := by
  by_cases hc : c.id ≠ ""
  · rw [lastIdFrom, List.filter_cons_of_pos (by simpa using hc), List.getLast?_cons]
    rw [lastIdFrom, if_pos hc]
    cases h : (List.filter (fun c => decide (c.id ≠ "")) cs).getLast? with
    | none => simp [h]
    | some x => simp [h]
  · rw [lastIdFrom, List.filter_cons_of_neg (by simpa using hc), if_neg hc]
    rfl

lemma perIndexFold_spec (cs : List ToolCallChunk) (r : OpenAIToolCall) :
    perIndexFold (some r) cs =
      some ⟨lastIdFrom r.id cs,
            r.name ++ String.join (cs.map ToolCallChunk.name),
            r.arguments ++ String.join (cs.map ToolCallChunk.args)⟩ := by
  induction cs generalizing r with
  | nil =>
    simp [perIndexFold, lastIdFrom, String.join, String.append_empty]
  | cons c cs ih =>
    show perIndexFold (some (applyChunkRecord r c)) cs = _
    rw [ih]
    refine congrArg some ?_
    have h1 : (applyChunkRecord r c).id = (if c.id ≠ "" then c.id else r.id) := rfl
    have h2 : (applyChunkRecord r c).name = r.name ++ c.name := rfl
    have h3 : (applyChunkRecord r c).arguments = r.arguments ++ c.args := rfl
    rw [h1, h2, h3, ← lastIdFrom_cons, List.map_cons, List.map_cons,
      string_join_cons, string_join_cons, String.append_assoc, String.append_assoc]

lemma jsOr_ne_of_ne (x y : String) (hy : y ≠ "") : jsOr x y ≠ "" := by
  unfold jsOr
  split
  · exact hy
  · assumption

lemma stepA_toolCalls_fold (parse : String → Option String)
    (exec : String → String → ExecOutcome) (tcs : List OpenAIToolCall)
    (st1 : TurnStateA) :
    tcs.foldl (fun s tc => { s with history := s.history ++ [toolEntryA parse exec tc] })
      st1 =
    { st1 with history := st1.history ++ tcs.map (toolEntryA parse exec) } := by
  induction tcs generalizing st1 with
  | nil => simp
  | cons tc tcs ih =>
    show tcs.foldl _ { st1 with history := st1.history ++ [toolEntryA parse exec tc] } = _
    rw [ih]
    simp

/-- C1: for every provider adapter (OpenAI-compatible, Ollama,
Anthropic), if the in-flight request is aborted via the cancellation
token — the fetch rejects with an `AbortError` — then
`generateResponse` invokes `onFinish` with reason `aborted` and never
invokes `onError` for that abort: the event list is exactly
`[finish "aborted"]`, which contains no error event. -/
theorem claim_C1 (s : PluginSettingsM) (msgs : List ChatMessage) (m : String)
    (h1 : openAIEffectiveEndpoint s ≠ "") (h2 : openAIEffectiveModel s ≠ "")
    (h3 : ollamaConfigMissing s = false)
    (h4 : (s.anthropic.getD {}).apiKey ≠ "")
    (h5 : ¬((convertToAnthropicMessages msgs).1 = [] ∧
          (convertToAnthropicMessages msgs).2 = none)) :
    openAIGenerateResponse s (.reject "AbortError" m) =
      ⟨[.finish "aborted"], true⟩ ∧
    ollamaGenerateResponse s (.reject "AbortError" m) =
      ⟨[.finish "aborted"], true⟩ ∧
    anthropicGenerateResponse s msgs (.reject "AbortError" m) =
      ⟨[.finish "aborted"], true⟩ := by
  refine ⟨?_, ?_, ?_⟩
  · rw [openAIGenerateResponse, if_neg h1, if_neg h2]
    simp
  · rw [ollamaGenerateResponse, if_neg (by simp [h3])]
    simp
  · rw [anthropicGenerateResponse]
    simp only []
    rw [if_neg h4,
      if_neg (jsOr_ne_of_ne (s.anthropic.getD {}).defaultModel
        "claude-3-haiku-20240307" (by decide)),
      if_neg h5]
    simp

/-- C1 witness: the three abort results at concrete settings and a
concrete transcript. -/
theorem claim_C1_witness :
    openAIGenerateResponse settingsAll (.reject "AbortError" "aborted by user") =
      ⟨[.finish "aborted"], true⟩ ∧
    ollamaGenerateResponse settingsAll (.reject "AbortError" "aborted by user") =
      ⟨[.finish "aborted"], true⟩ ∧
    anthropicGenerateResponse settingsAll msgsEx
      (.reject "AbortError" "aborted by user") = ⟨[.finish "aborted"], true⟩ :=
  claim_C1 settingsAll msgsEx "aborted by user" (by decide) (by decide) (by decide)
    (by decide) (by decide)

/-- C2: delivering tool-call fragments in any interleaving across
indices that preserves the per-index relative order yields an
accumulator identical to the one produced by delivering all fragments
in index order; and a fragment for a not-yet-seen index initializes a
fresh record with empty-string fields, so concatenation is always
defined. -/
theorem claim_C2 :
    (∀ (f : Nat → List ToolCallChunk) (n : Nat) (l : List ToolCallChunk)
      (acc : Accum),
      (∀ i c, c ∈ f i → ToolCallChunk.index c = i) →
      (∀ i, n ≤ i → f i = []) →
      IsInterleaving f l →
      accumAfterChunks acc l = accumAfterChunks acc (inOrderChunks f n)) ∧
    (∀ (acc : Accum) (c : ToolCallChunk), acc.get c.index = none →
      (applyChunk acc c).get c.index = some (applyChunkRecord emptyToolCall c)) := by
  constructor
  · intro f n l acc hidx hbound hint
    exact accumAfterChunks_congr acc l (inOrderChunks f n) fun i =>
      (interleaving_filter f l hidx hint i).trans (inOrder_filter f n hidx hbound i).symm
  · intro acc c h
    simp [applyChunk, h]

lemma fEx_idx : ∀ i c, c ∈ fEx i → ToolCallChunk.index c = i := by
  intro i c hc
  by_cases h0 : i = 0
  · subst h0
    simp [fEx] at hc
    subst hc
    rfl
  · by_cases h1 : i = 1
    · subst h1
      simp [fEx, h0] at hc
      subst hc
      rfl
    · simp [fEx, h0, h1] at hc

lemma fEx_bound : ∀ i, 2 ≤ i → fEx i = [] := by
  intro i hi
  have h0 : ¬(i = 0) := by omega
  have h1 : ¬(i = 1) := by omega
  simp [fEx, h0, h1]

lemma fEx_interleave : IsInterleaving fEx [c10, c00] := by
  refine IsInterleaving.cons fEx 1 c10 [] [c00] rfl ?_
  refine IsInterleaving.cons (updateFam fEx 1 []) 0 c00 [] [] rfl ?_
  refine IsInterleaving.nil _ ?_
  intro i
  match i with
  | 0 => rfl
  | 1 => rfl
  | n + 2 => rfl

/-- C2 witness: the reversed-index interleaving `[c10, c00]` produces
the same accumulator as the index-order delivery, and a fragment for a
fresh index initializes empty-string fields. -/
theorem claim_C2_witness :
    accumAfterChunks emptyAccum [c10, c00] =
      accumAfterChunks emptyAccum (inOrderChunks fEx 2) ∧
    (applyChunk emptyAccum c00).get 0 = some (applyChunkRecord emptyToolCall c00) :=
  ⟨claim_C2.1 fEx 2 [c10, c00] emptyAccum fEx_idx fEx_bound fEx_interleave,
   claim_C2.2 emptyAccum c00 rfl⟩

/-- C3: when the OpenAI-compatible adapter sees a terminal frame with
`finish_reason == "tool_calls"`, the batch passed to `onToolCall` is
`emitted` of the final accumulator, and that batch contains exactly
the accumulated records whose id, function name and arguments are all
non-empty, in ascending accumulator-index order (the emitted records
are the second components of `emittedPairs`, whose membership is
characterized exactly and whose index components are strictly
increasing). -/
theorem claim_C3 (l₁ : List SSEData) (f : SSEData) (l₂ : List SSEData)
    (e : StreamEnd) (h₁ : ∀ g ∈ l₁, frameFin g = "")
    (hf : frameFin f = "tool_calls") :
    oaiLoop emptyAccum (l₁ ++ f :: l₂) e =
      deltaEvents l₁ ++
      ((if frameContent f ≠ "" then [StreamEvent.content (frameContent f) false]
        else []) ++
       [StreamEvent.toolCalls (emitted (accumAfterFrames emptyAccum (l₁ ++ [f]))),
        StreamEvent.finish "tool_calls"]) ∧
    (∀ i tc, (i, tc) ∈ emittedPairs (accumAfterFrames emptyAccum (l₁ ++ [f])) ↔
      ((accumAfterFrames emptyAccum (l₁ ++ [f])).get i = some tc ∧
        completeToolCall tc)) ∧
    emitted (accumAfterFrames emptyAccum (l₁ ++ [f])) =
      (emittedPairs (accumAfterFrames emptyAccum (l₁ ++ [f]))).map Prod.snd ∧
    ((emittedPairs (accumAfterFrames emptyAccum (l₁ ++ [f]))).map Prod.fst).Pairwise
      (· < ·) := by
  have hf' : frameFin f ≠ "" := by rw [hf]; decide
  have hd := oaiLoop_decomp emptyAccum l₁ f l₂ e h₁ hf'
  rw [hf] at hd
  rw [if_pos rfl] at hd
  refine ⟨hd, ?_, emitted_eq_pairs_map _, emittedPairs_fst_pairwise _⟩
  intro i tc
  exact mem_emittedPairs _ (goodAccum_accumAfterFrames _ _ goodAccum_empty) i tc

/-- C3 witness: on a concrete stream the batch holds exactly the one
complete record (the index-1 record lacks an id and is filtered out). -/
theorem claim_C3_witness :
    oaiLoop emptyAccum [fr1, fr2, frFin] .clean =
      [StreamEvent.toolCalls [⟨"call_1", "obsidian_readFile", "argpart"⟩],
       StreamEvent.finish "tool_calls"] := by
  have h := (claim_C3 [fr1, fr2] frFin [] .clean (by decide) (by decide)).1
  exact h.trans (by decide)

/-- C5 (amended): for every well-formed SSE stream containing a frame
with a truthy `finish_reason` (all earlier frames non-terminal), the
adapter emits the earlier frames' content deltas in original order
followed by exactly one terminal `onFinish` callback as the last
event; a stream that terminates with the `[DONE]` sentinel alone,
without a `finish_reason` frame, produces no terminal callback at
all (see the counterexample). -/
theorem claim_C5 (l₁ : List SSEData) (f : SSEData) (l₂ : List SSEData)
    (e : StreamEnd) (h₁ : ∀ g ∈ l₁, frameFin g = "")
    (hf : frameFin f ≠ "") :
    oaiLoop emptyAccum (l₁ ++ f :: l₂) e =
      deltaEvents l₁ ++
      ((if frameContent f ≠ "" then [StreamEvent.content (frameContent f) false]
        else []) ++
       ((if frameFin f = "tool_calls" then
          [StreamEvent.toolCalls (emitted (accumAfterFrames emptyAccum (l₁ ++ [f])))]
         else [StreamEvent.content "" true]) ++
        [StreamEvent.finish (frameFin f)])) ∧
    (oaiLoop emptyAccum (l₁ ++ f :: l₂) e).filter isFinishEvent =
      [StreamEvent.finish (frameFin f)] := by
  have hd := oaiLoop_decomp emptyAccum l₁ f l₂ e h₁ hf
  refine ⟨hd, ?_⟩
  rw [hd, List.filter_append, deltaEvents_filter_finish, List.filter_append,
    List.filter_append]
  have hc1 : (if frameContent f ≠ ""
      then [StreamEvent.content (frameContent f) false] else []).filter
      isFinishEvent = [] := by
    split <;> simp [isFinishEvent]
  have hc2 : (if frameFin f = "tool_calls" then
      [StreamEvent.toolCalls (emitted (accumAfterFrames emptyAccum (l₁ ++ [f])))]
     else [StreamEvent.content "" true]).filter isFinishEvent = [] := by
    split <;> simp [isFinishEvent]
  rw [hc1, hc2]
  simp [isFinishEvent]

/-- C5 witness: a content frame followed by a `stop` frame produces
the delta, the final empty update, and exactly one terminal event. -/
theorem claim_C5_witness :
    oaiLoop emptyAccum [SSEData.delta "Hi" [] "", SSEData.delta "" [] "stop"]
      .clean =
      [StreamEvent.content "Hi" false, StreamEvent.content "" true,
       StreamEvent.finish "stop"] ∧
    (oaiLoop emptyAccum [SSEData.delta "Hi" [] "", SSEData.delta "" [] "stop"]
      .clean).filter isFinishEvent = [StreamEvent.finish "stop"] := by
  have h := claim_C5 [SSEData.delta "Hi" [] ""] (SSEData.delta "" [] "stop") []
    .clean (by decide) (by decide)
  exact ⟨h.1.trans (by decide), h.2⟩

/-- C5 counterexample: a well-formed stream terminated by the literal
`[DONE]` sentinel with no `finish_reason` frame makes
`OpenAIProvider.generateResponse` return without any terminal
callback — zero `onFinish` events, not exactly one as claimed. -/
theorem claim_C5_counterexample :
    openAIGenerateResponse settingsAll (.stream [SSEData.doneSentinel] .clean) =
      ⟨[], true⟩ := by
  decide

/-- C10: in the accumulator, `id` is overwritten by each id-bearing
fragment while `name` and `arguments` are concatenated: for every
fragment list and index with at least one fragment at that index, the
final record's id is the id of the last id-bearing fragment at that
index (`""` if none carries one) and its name/arguments are the
concatenations of all the per-index pieces in arrival order. -/
theorem claim_C10 (l : List ToolCallChunk) (i : Nat)
    (h : l.filter (fun c => c.index = i) ≠ []) :
    ∃ r, (accumAfterChunks emptyAccum l).get i = some r ∧
      r.id = lastIdFrom "" (l.filter (fun c => c.index = i)) ∧
      r.name = String.join ((l.filter (fun c => c.index = i)).map
        ToolCallChunk.name) ∧
      r.arguments = String.join ((l.filter (fun c => c.index = i)).map
        ToolCallChunk.args) := by
  rw [accumAfterChunks_get]
  cases hcs : l.filter (fun c => c.index = i) with
  | nil => exact absurd hcs h
  | cons c cs =>
    have hstep : perIndexFold (emptyAccum.get i) (c :: cs) =
        perIndexFold (some (applyChunkRecord emptyToolCall c)) cs := rfl
    rw [hstep, perIndexFold_spec]
    refine ⟨_, rfl, ?_, ?_, ?_⟩
    · exact (lastIdFrom_cons "" c cs).symm
    · rw [List.map_cons, string_join_cons]
      rfl
    · rw [List.map_cons, string_join_cons]
      rfl

/-- C10 witness: at index 0 the final id is `b` (the last id-bearing
fragment), the name is the concatenation `fn` and the arguments are
`abcd`. -/
theorem claim_C10_witness :
    (accumAfterChunks emptyAccum lC10).get 0 =
      some ⟨lastIdFrom "" (lC10.filter (fun c => c.index = 0)),
            String.join ((lC10.filter (fun c => c.index = 0)).map
              ToolCallChunk.name),
            String.join ((lC10.filter (fun c => c.index = 0)).map
              ToolCallChunk.args)⟩ ∧
    lastIdFrom "" (lC10.filter (fun c => c.index = 0)) = "b" ∧
    String.join ((lC10.filter (fun c => c.index = 0)).map ToolCallChunk.name) =
      "fn" ∧
    String.join ((lC10.filter (fun c => c.index = 0)).map ToolCallChunk.args) =
      "abcd" := by
  obtain ⟨r, h1, h2, h3, h4⟩ := claim_C10 lC10 0 (by decide)
  refine ⟨?_, by decide, by decide, by decide⟩
  rw [h1, ← h2, ← h3, ← h4]

/-- C4 (amended): in the `src/main.ts` orchestrator
(`onContent`/`onFinish`), streaming `Hi` then ` there` and finishing
with reason `stop` and no tool calls appends exactly one assistant
entry whose content is the concatenation `Hi there`; the
`unnamed/part_003` orchestrator instead stores the final chunk passed
with `isFinal` (the empty string, from the OpenAI adapter), see the
counterexample. -/
theorem claim_C4 (parse : String → Option String)
    (exec : String → String → ExecOutcome) (h : List ChatMessage) :
    (runA parse exec (initialTurnStateA h)
      [.content "Hi" false, .content " there" false, .finish "stop"]).history =
      h ++ [⟨.assistant, .str "Hi there", [], ""⟩] := by
  simp only [runA, List.foldl_cons, List.foldl_nil, stepA, initialTurnStateA]
  simp

/-- C4 counterexample: feeding the very same backend stream (deltas
`Hi`, ` there`, then `finish_reason: "stop"`) through the OpenAI
adapter into the `unnamed/part_003` orchestrator appends one
assistant entry whose content is `""` — the final `onUpdate` chunk —
not the concatenation `Hi there`. -/
theorem claim_C4_counterexample :
    runB parseTrivial isLocalNone execBTrivial []
      (openAIGenerateResponse settingsAll
        (.stream [.delta "Hi" [] "", .delta " there" [] "", .delta "" [] "stop"]
          .clean)).events =
      [⟨.assistant, .str "", [], ""⟩] ∧
    MsgContent.str "" ≠ MsgContent.str "Hi there" := by
  decide

/-- C6 (amended): the OpenAI adapter reports a configuration error
and issues no fetch when the effective endpoint or model is missing;
the Ollama adapter does the same on its combined check; the Anthropic
adapter however only hard-fails on a missing API key — a missing
endpoint or model silently falls back to built-in defaults (see the
counterexample). -/
theorem claim_C6 (s : PluginSettingsM) (msgs : List ChatMessage)
    (out1 : FetchOutcome SSEData) (out2 : FetchOutcome OllamaItem)
    (out3 : FetchOutcome AnthItem) :
    (openAIEffectiveEndpoint s = "" →
      openAIGenerateResponse s out1 =
        ⟨[.error "OpenAI API endpoint is not set. Please configure it in settings."],
         false⟩) ∧
    (openAIEffectiveEndpoint s ≠ "" → openAIEffectiveModel s = "" →
      openAIGenerateResponse s out1 =
        ⟨[.error "OpenAI Default model is not set. Please configure it in settings."],
         false⟩) ∧
    (ollamaConfigMissing s = true →
      ollamaGenerateResponse s out2 =
        ⟨[.error "Ollama API endpoint or default model is not set."], false⟩) ∧
    ((s.anthropic.getD {}).apiKey = "" →
      anthropicGenerateResponse s msgs out3 =
        ⟨[.error "Anthropic API key is not set."], false⟩) := by
  refine ⟨?_, ?_, ?_, ?_⟩
  · intro h
    rw [openAIGenerateResponse.eq_def, if_pos h]
  · intro h1 h2
    rw [openAIGenerateResponse.eq_def, if_neg h1, if_pos h2]
  · intro h
    rw [ollamaGenerateResponse.eq_def, if_pos (by simp [h])]
  · intro h
    rw [anthropicGenerateResponse.eq_def]
    simp only []
    rw [if_pos h]

/-- C6 witness: the four configuration-error paths at concrete
settings. -/
theorem claim_C6_witness :
    openAIGenerateResponse settingsNoEndpoint .noBody =
      ⟨[.error "OpenAI API endpoint is not set. Please configure it in settings."],
       false⟩ ∧
    openAIGenerateResponse settingsNoModel .noBody =
      ⟨[.error "OpenAI Default model is not set. Please configure it in settings."],
       false⟩ ∧
    ollamaGenerateResponse settingsNoModel .noBody =
      ⟨[.error "Ollama API endpoint or default model is not set."], false⟩ ∧
    anthropicGenerateResponse settingsNoModel msgsEx .noBody =
      ⟨[.error "Anthropic API key is not set."], false⟩ :=
  ⟨(claim_C6 settingsNoEndpoint msgsEx .noBody .noBody .noBody).1 (by decide),
   ((claim_C6 settingsNoModel msgsEx .noBody .noBody .noBody).2.1 (by decide)
     (by decide)),
   ((claim_C6 settingsNoModel msgsEx .noBody .noBody .noBody).2.2.1 (by decide)),
   ((claim_C6 settingsNoModel msgsEx .noBody .noBody .noBody).2.2.2 (by decide))⟩

/-- C6 counterexample: with the Anthropic provider's settings lacking
both `apiEndpoint` and `defaultModel`, `generateResponse` still
reaches the fetch (no configuration error): the claim fails for the
Anthropic adapter. -/
theorem claim_C6_counterexample :
    (settingsAnthNoEndpoint.anthropic.getD {}).apiEndpoint = "" ∧
    (settingsAnthNoEndpoint.anthropic.getD {}).defaultModel = "" ∧
    (anthropicGenerateResponse settingsAnthNoEndpoint msgsEx .noBody).fetched =
      true ∧
    anthropicGenerateResponse settingsAnthNoEndpoint msgsEx .noBody =
      ⟨[.error "Response body is null."], true⟩ := by
  decide

/-- C7 (amended): in the `src/main.ts` orchestrator's
`onToolCallsDone`, argument parsing is wrapped in a per-call
try/catch: for every non-empty batch, every parse model and every
executor, the orchestrator appends the assistant entry followed by
exactly one `tool` entry per call, in call order, each carrying that
call's id — a parse failure affects only its own call.  The
`unnamed/part_003` orchestrator's `onToolCall` does NOT catch the
per-call `JSON.parse`, so there one bad call aborts the whole batch
(see the counterexample). -/
theorem claim_C7 (parse : String → Option String)
    (exec : String → String → ExecOutcome) (st : TurnStateA)
    (tcs : List OpenAIToolCall) (h : tcs ≠ []) :
    (stepA parse exec st (.toolCalls tcs)).history =
      st.history ++ ⟨.assistant, .str st.accumulated, tcs, ""⟩ ::
        tcs.map (toolEntryA parse exec) ∧
    (∀ tc, (toolEntryA parse exec tc).role = .tool ∧
      (toolEntryA parse exec tc).toolCallId = tc.id) ∧
    (stepA parse exec st (.toolCalls tcs)).followUps = st.followUps + 1 := by
  have hstep : stepA parse exec st (.toolCalls tcs) =
      { st with
        history := (st.history ++ [⟨.assistant, .str st.accumulated, tcs, ""⟩]) ++
          tcs.map (toolEntryA parse exec)
        accumulated := ""
        currentToolCalls := tcs
        followUps := st.followUps + 1 } := by
    show (if tcs = [] then st else _) = _
    rw [if_neg h, stepA_toolCalls_fold]
  refine ⟨?_, ?_, ?_⟩
  · rw [hstep]
    simp
  · intro tc
    cases hp : parse tc.arguments with
    | some emsg => simp [toolEntryA, hp]
    | none =>
      cases ho : (if strStartsWith tc.name "obsidian_" then exec tc.name tc.arguments
          else .err ("ToolHive-managed MCP tool execution for " ++ sqc ++ tc.name ++
            sqc ++ " is not yet fully implemented here.")) with
      | err m => simp [toolEntryA, hp, ho]
      | ok r => simp [toolEntryA, hp, ho]
  · rw [hstep]

/-- C7 witness: in the `src/main.ts` orchestrator the bad first call
yields an error `tool` entry and the second call still executes and
yields its own `tool` entry. -/
theorem claim_C7_witness :
    (stepA parseEx execEx (initialTurnStateA []) (.toolCalls tcsC7)).history =
      [⟨.assistant, .str "", tcsC7, ""⟩,
       ⟨.tool, .errJson
         "Error parsing arguments for tool obsidian_readFile: Unexpected token",
         [], "call_1"⟩,
       ⟨.tool, .resJson "file content", [], "call_2"⟩] := by
  have h := (claim_C7 parseEx execEx (initialTurnStateA []) tcsC7 (by decide)).1
  exact h.trans (by decide)

/-- C7 counterexample: the `unnamed/part_003` orchestrator's
`onToolCall` runs `JSON.parse(toolCall.function.arguments)` with no
per-call try/catch; on the same batch — first call's arguments
invalid — the loop throws before any entry is pushed, so neither call
gets a `tool` entry (`none` models the escaped exception), refuting
"caught for that call alone" and "every call results in exactly one
tool entry". -/
theorem claim_C7_counterexample :
    onToolCallB parseEx isLocalEx execBEx tcsC7 = none := by
  decide

/-- C8: if a completed tool call names a function with no matching
handler, the `unnamed/part_003` orchestrator appends a `tool` entry
whose content is an error referencing that name, carrying the call's
id, and still invokes the follow-up generation turn
(`continueGenerationWithTools`) afterwards. -/
theorem claim_C8 (parse : String → Option String) (isLocal : String → Bool)
    (execB : String → String → McpCallResult) (tc : OpenAIToolCall)
    (hp : parse tc.arguments = none) (hl : isLocal tc.name = false) :
    onToolCallB parse isLocal execB [tc] =
      some ⟨[⟨.tool, .str ("Error: Tool " ++ sqc ++ tc.name ++ sqc ++
        " is not a recognized local or Obsidian command."), [], tc.id⟩],
        true⟩ := by
  rw [onToolCallB, onToolCallGoB, hp]
  rw [hl]
  simp [onToolCallGoB]

/-- C8 witness: the nonexistent tool name `foo_bar` yields exactly the
error entry for its call id and the follow-up turn flag. -/
theorem claim_C8_witness :
    onToolCallB parseEx isLocalEx execBEx [⟨"call_9", "foo_bar", "argsok"⟩] =
      some ⟨[⟨.tool, .str ("Error: Tool " ++ sqc ++ "foo_bar" ++ sqc ++
        " is not a recognized local or Obsidian command."), [], "call_9"⟩],
        true⟩ :=
  claim_C8 parseEx isLocalEx execBEx ⟨"call_9", "foo_bar", "argsok"⟩
    (by decide) (by decide)

/-- C9 (amended): in `LocalToolService.executeTool` of
`McpMarketplaceService.ts` the host-command id match takes precedence
over the built-in local tools (not the other way round, as the claim
states — see the counterexample): a name matching a command id is
executed fire-and-forget and a synthetic success message built from
the command's display name is returned; built-ins are dispatched only
when no command id matches. -/
theorem claim_C9 (commands : List CommandM) (execCmd : String → ExecCmdOutcome)
    (rf wf sn : McpCallResult) (toolName : String) :
    (∀ cmd, commands.find? (fun c => c.id = toolName) = some cmd →
      execCmd toolName = .ok →
      executeToolM commands execCmd rf wf sn toolName =
        ⟨false, [⟨"Successfully executed Obsidian command: " ++ cmd.name⟩]⟩) ∧
    (commands.find? (fun c => c.id = toolName) = none →
      toolName = "obsidian_readFile" →
      executeToolM commands execCmd rf wf sn toolName = rf) := by
  constructor
  · intro cmd hf hok
    rw [executeToolM, hf, hok]
  · intro hf ht
    rw [executeToolM, hf]
    subst ht
    simp

/-- C9 counterexample: when a host command id equals the built-in
name `obsidian_readFile`, `executeTool` runs the host command and
returns its synthetic success message, not the built-in's result —
the built-in does NOT take precedence. -/
theorem claim_C9_counterexample :
    executeToolM cmdsEx execCmdOk readRes otherRes otherRes "obsidian_readFile" =
      ⟨false, [⟨"Successfully executed Obsidian command: Open reader"⟩]⟩ ∧
    executeToolM cmdsEx execCmdOk readRes otherRes otherRes "obsidian_readFile" ≠
      readRes := by
  decide

/-- C9 witness: the two lookup branches at concrete inputs — a
command-id match yields the synthetic success message; with no
command match the built-in dispatch returns the vault result. -/
theorem claim_C9_witness :
    executeToolM cmdsEx execCmdOk readRes otherRes otherRes "obsidian_readFile" =
      ⟨false, [⟨"Successfully executed Obsidian command: Open reader"⟩]⟩ ∧
    executeToolM [] execCmdOk readRes otherRes otherRes "obsidian_readFile" =
      readRes :=
  ⟨(claim_C9 cmdsEx execCmdOk readRes otherRes otherRes "obsidian_readFile").1
      ⟨"obsidian_readFile", "Open reader"⟩ (by decide) (by decide),
   (claim_C9 [] execCmdOk readRes otherRes otherRes "obsidian_readFile").2
      (by decide) (by decide)⟩
